import Mathlib

/-!
Shallow embedding of the FastAPI Pokemon application
(`pokemon_api.py`, `models.py`, `schemas.py`).

The relational store (PostgreSQL accessed through SQLAlchemy sessions) is
modelled as a `DB` value holding the four tables as lists of rows in insertion
order.  Each request handler becomes a pure function; handlers that write take
the store and return the store after their single `db.commit()`.  An HTTP
error response (`HTTPException`) is modelled as `Except.error` carrying the
status code.  The framework routing/validation/serialization layer is out of
scope (spec section 1); pydantic models are embedded as structures holding the
already-validated field values.
-/

/-- ORM row of `models.Pokemon` (table `pokemons`).  `id` is the caller-assigned
primary key; `height`/`weight`/`xp` and the two URL columns are nullable. -/
structure PokemonRow where
  id : Int
  name : String
  height : Option Int
  weight : Option Int
  xp : Option Int
  image_url : Option String
  pokemon_url : Option String
deriving Repr, DecidableEq

/-- ORM row of `models.Ability` (table `abilities`), minus the auto-generated
surrogate `id` column, which the application never reads or returns. -/
structure AbilityRow where
  pokemon_id : Int
  name : String
  is_hidden : Bool
deriving Repr, DecidableEq

/-- ORM row of `models.Stat` (table `stats`), minus the surrogate `id`. -/
structure StatRow where
  pokemon_id : Int
  name : String
  base_stat : Int
deriving Repr, DecidableEq

/-- ORM row of `models.Type` (table `types`), minus the surrogate `id`. -/
structure TypeRow where
  pokemon_id : Int
  name : String
deriving Repr, DecidableEq

/-- The relational store: one list per table, rows in insertion order. -/
structure DB where
  pokemons : List PokemonRow
  abilities : List AbilityRow
  stats : List StatRow
  types : List TypeRow
deriving Repr, DecidableEq

/-- Referential integrity as the schema's foreign keys and the ORM cascade
maintain it: primary keys of `pokemons` are unique, and every child row
references an existing parent. -/
def DB.WF (db : DB) : Prop :=
  db.pokemons.Pairwise (fun p q => p.id ≠ q.id) ∧
  (∀ a ∈ db.abilities, ∃ p ∈ db.pokemons, a.pokemon_id = p.id) ∧
  (∀ s ∈ db.stats, ∃ p ∈ db.pokemons, s.pokemon_id = p.id) ∧
  (∀ t ∈ db.types, ∃ p ∈ db.pokemons, t.pokemon_id = p.id)

/-- `schemas.Ability` request/response model. -/
structure AbilityModel where
  name : String
  is_hidden : Bool
deriving Repr, DecidableEq

/-- `schemas.Stat` request/response model. -/
structure StatModel where
  name : String
  base_stat : Int
deriving Repr, DecidableEq

/-- `schemas.Type` request/response model. -/
structure TypeModel where
  name : String
deriving Repr, DecidableEq

/-- `schemas.PokemonModel`: the full entity, used both as the create request
body and as the response shape of the read endpoints.  `HttpUrl` fields are
modelled as the strings they are converted to before storage. -/
structure PokemonModel where
  id : Int
  name : String
  height : Option Int
  weight : Option Int
  xp : Option Int
  image_url : Option String
  pokemon_url : Option String
  abilities : List AbilityModel
  stats : List StatModel
  types : List TypeModel
deriving Repr, DecidableEq

/-- `schemas.PokemonUpdateModel` with pydantic `exclude_unset` semantics.
For a scalar field the outer `Option` records whether the caller supplied the
field at all (`none` = absent from the request, so `dict(exclude_unset=True)`
omits it) and the inner `Option` is the supplied value, possibly `null`.
`name` is required, hence always supplied.  For the three child lists the
handler only tests `is not None`, under which an explicit `null` and an
omitted field behave identically, so one `Option` layer suffices. -/
structure PokemonUpdateModel where
  name : String
  height : Option (Option Int)
  weight : Option (Option Int)
  xp : Option (Option Int)
  image_url : Option (Option String)
  pokemon_url : Option (Option String)
  abilities : Option (List AbilityModel)
  stats : Option (List StatModel)
  types : Option (List TypeModel)
deriving Repr, DecidableEq

/-- Serialization of an ORM `Pokemon` row through `response_model=PokemonModel`:
the three child collections are the relationship rows, i.e. the child-table
rows whose `pokemon_id` equals the parent's primary key, in table order. -/
def serializePokemon (db : DB) (p : PokemonRow) : PokemonModel :=
  { id := p.id
    name := p.name
    height := p.height
    weight := p.weight
    xp := p.xp
    image_url := p.image_url
    pokemon_url := p.pokemon_url
    abilities := (db.abilities.filter (fun a => a.pokemon_id == p.id)).map
      (fun a => { name := a.name, is_hidden := a.is_hidden })
    stats := (db.stats.filter (fun s => s.pokemon_id == p.id)).map
      (fun s => { name := s.name, base_stat := s.base_stat })
    types := (db.types.filter (fun t => t.pokemon_id == p.id)).map
      (fun t => { name := t.name }) }

/-- Handler `GET /pokemon/all` (`get_all_pokemon`): `db.query(Pokemon).all()`,
return the list if it is truthy (non-empty), else raise 404. -/
def get_all_pokemon (db : DB) : Except Nat (List PokemonModel) :=
  let pokemon_list := db.pokemons
  if pokemon_list ≠ [] then
    .ok (pokemon_list.map (serializePokemon db))
  else
    .error 404

/-- Handler `GET /pokemon/{pokemon_id}` (`get_pokemon_by_id`):
`filter(Pokemon.id == pokemon_id).first()`, 404 when absent. -/
def get_pokemon_by_id (pokemon_id : Int) (db : DB) : Except Nat PokemonModel :=
  match db.pokemons.find? (fun p => p.id == pokemon_id) with
  | some pokemon => .ok (serializePokemon db pokemon)
  | none => .error 404

/-- SQL `lower()` as PostgreSQL applies it for `ILIKE` matching (per-character
case folding), on the character-list representation of the string. -/
def strLower (s : String) : String :=
  ⟨s.data.map Char.toLower⟩

/-- One step of the SQL `LIKE` pattern matcher: `%` matches any sequence,
`_` any single character, backslash (PostgreSQL's default escape) makes the
next pattern character literal, every other character matches itself.
Structural recursion on an explicit fuel argument, so that concrete instances
reduce; `likeMatch` always supplies enough fuel (each recursive call shrinks
`pattern.length + chars.length`, so the `0` case is never reached). -/
def likeMatchAux : Nat → List Char → List Char → Bool
  | 0, _, _ => false
  | _ + 1, [], chars => chars.isEmpty
  | fuel + 1, c :: ps, chars =>
    if c = '%' then
      likeMatchAux fuel ps chars ||
        (match chars with
         | [] => false
         | _ :: t => likeMatchAux fuel (c :: ps) t)
    else if c = '_' then
      (match chars with
       | [] => false
       | _ :: t => likeMatchAux fuel ps t)
    else if c = '\\' then
      (match ps with
       | [] =>
         (match chars with
          | [] => false
          | c2 :: t => c2 == c && likeMatchAux fuel ps t)
       | d :: ps2 =>
         (match chars with
          | [] => false
          | c2 :: t => c2 == d && likeMatchAux fuel ps2 t))
    else
      (match chars with
       | [] => false
       | c2 :: t => c2 == c && likeMatchAux fuel ps t)

/-- SQL `LIKE` on whole strings. -/
def likeMatch (pattern s : List Char) : Bool :=
  likeMatchAux (pattern.length + s.length + 1) pattern s

/-- `column.ilike(pattern)`: case-insensitive `LIKE`, modelled as `LIKE` over
both sides lowercased. -/
def ilike (s pattern : String) : Bool :=
  likeMatch (strLower pattern).data (strLower s).data

/-- Handler `GET /pokemon/name/{pokemon_name}` (`get_pokemon_by_name`):
`filter(Pokemon.name.ilike(pokemon_name)).first()`, 404 when nothing
matches.  The raw path parameter is used as the `ILIKE` pattern. -/
def get_pokemon_by_name (pokemon_name : String) (db : DB) : Except Nat PokemonModel :=
  match db.pokemons.find? (fun pokemon => ilike pokemon.name pokemon_name) with
  | some pokemon => .ok (serializePokemon db pokemon)
  | none => .error 404

/-- Handler `POST /pokemon/` (`create_pokemon`).  Raises 400 when a row with
the requested id already exists (before any write, so the store is returned
unchanged); otherwise inserts the Pokemon row and its ability/stat/type rows
and commits once.  The response is the dict built from `new_pokemon` and its
relationship lists, which hold exactly the supplied children. -/
def create_pokemon (pokemon : PokemonModel) (db : DB) : Except Nat PokemonModel × DB :=
  match db.pokemons.find? (fun p => p.id == pokemon.id) with
  | some _ => (.error 400, db)
  | none =>
    let new_pokemon : PokemonRow :=
      { id := pokemon.id
        name := pokemon.name
        height := pokemon.height
        weight := pokemon.weight
        xp := pokemon.xp
        image_url := pokemon.image_url
        pokemon_url := pokemon.pokemon_url }
    let db' : DB :=
      { pokemons := db.pokemons ++ [new_pokemon]
        abilities := db.abilities ++ pokemon.abilities.map
          (fun a => { pokemon_id := pokemon.id, name := a.name, is_hidden := a.is_hidden })
        stats := db.stats ++ pokemon.stats.map
          (fun s => { pokemon_id := pokemon.id, name := s.name, base_stat := s.base_stat })
        types := db.types ++ pokemon.types.map
          (fun t => { pokemon_id := pokemon.id, name := t.name }) }
    let response : PokemonModel :=
      { id := new_pokemon.id
        name := new_pokemon.name
        height := new_pokemon.height
        weight := new_pokemon.weight
        xp := new_pokemon.xp
        image_url := new_pokemon.image_url
        pokemon_url := new_pokemon.pokemon_url
        abilities := pokemon.abilities.map (fun a => { name := a.name, is_hidden := a.is_hidden })
        stats := pokemon.stats.map (fun s => { name := s.name, base_stat := s.base_stat })
        types := pokemon.types.map (fun t => { name := t.name }) }
    (.ok response, db')

/-- `first()`-then-`setattr` mutation: apply `f` to the first row whose `id`
matches, leave every other row as it is. -/
def updateFirstRow (rows : List PokemonRow) (pokemon_id : Int)
    (f : PokemonRow → PokemonRow) : List PokemonRow :=
  match rows with
  | [] => []
  | r :: rs => if r.id == pokemon_id then f r :: rs else r :: updateFirstRow rs pokemon_id f

/-- The `setattr` loop of `update_pokemon` over
`updated_data.dict(exclude_unset=True, exclude={abilities, stats, types})`:
each scalar field the caller supplied overwrites the column (an explicit
`null` stores NULL); unsupplied fields are left alone.  `name` is required in
`PokemonUpdateModel`, hence always supplied.  The `id` column is not a field
of the update model, so the loop can never assign it. -/
def applyScalarUpdates (pokemon : PokemonRow) (updated_data : PokemonUpdateModel) : PokemonRow :=
  { pokemon with
    name := updated_data.name
    height := updated_data.height.getD pokemon.height
    weight := updated_data.weight.getD pokemon.weight
    xp := updated_data.xp.getD pokemon.xp
    image_url := updated_data.image_url.getD pokemon.image_url
    pokemon_url := updated_data.pokemon_url.getD pokemon.pokemon_url }

/-- Handler `PUT /pokemon/{pokemon_id}` (`update_pokemon`).  404 when the id is
absent.  Otherwise: scalar `setattr` loop on the found row; then, for each
child collection the caller supplied (tested with `is not None`), a bulk
delete of that Pokemon's rows of that kind followed by insertion of the
supplied rows; one commit at the end.  Returns the updated row. -/
def update_pokemon (pokemon_id : Int) (updated_data : PokemonUpdateModel) (db : DB) :
    Except Nat PokemonRow × DB :=
  match db.pokemons.find? (fun p => p.id == pokemon_id) with
  | none => (.error 404, db)
  | some pokemon =>
    let db1 : DB :=
      { db with
          pokemons := updateFirstRow db.pokemons pokemon_id
            (fun p => applyScalarUpdates p updated_data) }
    let db2 : DB :=
      match updated_data.abilities with
      | none => db1
      | some ability_list =>
        { db1 with abilities :=
            db1.abilities.filter (fun a => a.pokemon_id != pokemon_id) ++
              ability_list.map (fun a =>
                { pokemon_id := pokemon_id, name := a.name, is_hidden := a.is_hidden }) }
    let db3 : DB :=
      match updated_data.stats with
      | none => db2
      | some stat_list =>
        { db2 with stats :=
            db2.stats.filter (fun s => s.pokemon_id != pokemon_id) ++
              stat_list.map (fun s =>
                { pokemon_id := pokemon_id, name := s.name, base_stat := s.base_stat }) }
    let db4 : DB :=
      match updated_data.types with
      | none => db3
      | some type_list =>
        { db3 with types :=
            db3.types.filter (fun t => t.pokemon_id != pokemon_id) ++
              type_list.map (fun t => { pokemon_id := pokemon_id, name := t.name }) }
    (.ok (applyScalarUpdates pokemon updated_data), db4)

/-- Handler `DELETE /pokemon/{pokemon_id}` (`delete_pokemon`).  404 when the id
is absent; otherwise `db.delete` removes the row (unique by primary key, so
filtering the id out removes exactly it) and the ORM `cascade="all, delete"`
removes the child rows referencing it.  Returns the deleted row's last-known
state. -/
def delete_pokemon (pokemon_id : Int) (db : DB) : Except Nat PokemonRow × DB :=
  match db.pokemons.find? (fun p => p.id == pokemon_id) with
  | none => (.error 404, db)
  | some pokemon =>
    ( .ok pokemon,
      { pokemons := db.pokemons.filter (fun p => p.id != pokemon_id)
        abilities := db.abilities.filter (fun a => a.pokemon_id != pokemon_id)
        stats := db.stats.filter (fun s => s.pokemon_id != pokemon_id)
        types := db.types.filter (fun t => t.pokemon_id != pokemon_id) } )

/-! ### Seed loader (`load_data`, the `startup` hook)

The loader fetches a JSON array, then inserts each record that is not already
present, and commits once at the very end; the whole body sits in one
`try/except` whose handler only prints.  JSON records are dictionaries, so a
field access `p["key"]` can raise `KeyError`; each record field is therefore
an `Option`, and reading an absent key is the in-record failure point. -/

/-- One ability entry of a seed record (`p["abilities"][i]`). -/
structure SeedAbility where
  name : Option String
  is_hidden : Option Bool
deriving Repr, DecidableEq

/-- One stat entry of a seed record. -/
structure SeedStat where
  name : Option String
  base_stat : Option Int
deriving Repr, DecidableEq

/-- One type entry of a seed record. -/
structure SeedType where
  name : Option String
deriving Repr, DecidableEq

/-- One record of the fetched JSON array, as the loader reads it. -/
structure SeedRecord where
  id : Option Int
  name : Option String
  height : Option Int
  weight : Option Int
  xp : Option Int
  image_url : Option String
  pokemon_url : Option String
  abilities : Option (List SeedAbility)
  stats : Option (List SeedStat)
  types : Option (List SeedType)
deriving Repr, DecidableEq

/-- Dictionary access `p["key"]`: the value when the key is present, otherwise
a `KeyError` that aborts the whole load. -/
def fetchKey (o : Option α) (key : String) : Except String α :=
  match o with
  | some v => .ok v
  | none => .error ("KeyError: " ++ key)

/-- The loop body of `load_data` for one record `p`: check existence by
`p["id"]`; when absent, build the Pokemon row and its ability/stat/type rows
(in source order) and add them to the session.  The session state is threaded
as the `DB` value (the session autoflushes, so later existence checks see
earlier uncommitted adds). -/
def loadRecord (db : DB) (p : SeedRecord) : Except String DB := do
  let pid ← fetchKey p.id "id"
  if (db.pokemons.find? (fun q => q.id == pid)).isSome then
    pure db
  else
    let name ← fetchKey p.name "name"
    let height ← fetchKey p.height "height"
    let weight ← fetchKey p.weight "weight"
    let xp ← fetchKey p.xp "xp"
    let image_url ← fetchKey p.image_url "image_url"
    let pokemon_url ← fetchKey p.pokemon_url "pokemon_url"
    let pokemon : PokemonRow :=
      { id := pid, name := name, height := some height, weight := some weight,
        xp := some xp, image_url := some image_url, pokemon_url := some pokemon_url }
    let ability_entries ← fetchKey p.abilities "abilities"
    let ability_rows ← ability_entries.mapM (fun ab => do
      let n ← fetchKey ab.name "name"
      let h ← fetchKey ab.is_hidden "is_hidden"
      pure ({ pokemon_id := pid, name := n, is_hidden := h } : AbilityRow))
    let stat_entries ← fetchKey p.stats "stats"
    let stat_rows ← stat_entries.mapM (fun st => do
      let n ← fetchKey st.name "name"
      let b ← fetchKey st.base_stat "base_stat"
      pure ({ pokemon_id := pid, name := n, base_stat := b } : StatRow))
    let type_entries ← fetchKey p.types "types"
    let type_rows ← type_entries.mapM (fun t => do
      let n ← fetchKey t.name "name"
      pure ({ pokemon_id := pid, name := n } : TypeRow))
    pure { db with
             pokemons := db.pokemons ++ [pokemon]
             abilities := db.abilities ++ ability_rows
             stats := db.stats ++ stat_rows
             types := db.types ++ type_rows }

/-- The `for p in data` loop: process records in order, aborting on the first
exception. -/
def loadRecords (db : DB) : List SeedRecord → Except String DB
  | [] => .ok db
  | p :: rest =>
    match loadRecord db p with
    | .error e => .error e
    | .ok db' => loadRecords db' rest

/-- Everything inside the `try` block: the fetch-and-parse result (already
`Except`-shaped, since `urlopen`/`json.loads` may throw) followed by the
record loop.  A `.ok` value is the session state at the single `db.commit()`. -/
def load_dataAttempt (fetched : Except String (List SeedRecord)) (db : DB) :
    Except String DB :=
  match fetched with
  | .error e => .error e
  | .ok data => loadRecords db data

/-- `load_data` end to end: on success the final commit persists the session
state; on any exception the handler catches and prints it, the commit is never
reached, and the uncommitted session is discarded, leaving the store as it
was.  Totality of this function is the model of "caught, not propagated". -/
def load_data (fetched : Except String (List SeedRecord)) (db : DB) : DB :=
  match load_dataAttempt fetched db with
  | .ok db' => db'
  | .error _ => db

/-! ### Helper lemmas -/

theorem exceptBind_ok {ε α β : Type} {x : Except ε α} {f : α → Except ε β} {b : β}
    (h : x >>= f = Except.ok b) : ∃ a, x = .ok a ∧ f a = .ok b := by
  cases x with
  | error e => simp [Bind.bind, Except.bind] at h
  | ok a => exact ⟨a, rfl, by simpa [Bind.bind, Except.bind] using h⟩

theorem updateFirstRow_map_id (l : List PokemonRow) (pid : Int) (f : PokemonRow → PokemonRow)
    (hf : ∀ p, (f p).id = p.id) :
    (updateFirstRow l pid f).map (fun p => p.id) = l.map (fun p => p.id) := by
  induction l with
  | nil => rfl
  | cons r rs ih =>
    by_cases hr : (r.id == pid) = true
    · simp [updateFirstRow, hr, hf]
    · simp [updateFirstRow, hr, ih]

theorem find?_updateFirstRow (l : List PokemonRow) (pid : Int) (f : PokemonRow → PokemonRow)
    (q : PokemonRow) (hf : ∀ p, (f p).id = p.id)
    (hq : l.find? (fun p => p.id == pid) = some q) :
    (updateFirstRow l pid f).find? (fun p => p.id == pid) = some (f q) := by
  induction l with
  | nil => simp at hq
  | cons r rs ih =>
    cases hr : (r.id == pid) with
    | true =>
      simp only [List.find?_cons, hr] at hq
      injection hq with hq
      subst hq
      simp [updateFirstRow, hr, List.find?_cons, hf]
    | false =>
      simp only [List.find?_cons, hr] at hq
      simp only [updateFirstRow, hr, Bool.false_eq_true, if_false, List.find?_cons]
      exact ih hq

/-! ### Claim theorems -/

/-- Claim C2: with any store state and any create request whose identifier
already exists in the store, `create_pokemon` answers the 400 conflict signal
and returns the store unchanged, so the existing row and its child collections
are untouched. -/
theorem create_conflict_preserves_store (db : DB) (pokemon : PokemonModel)
    (h : ∃ q ∈ db.pokemons, q.id = pokemon.id) :
    create_pokemon pokemon db = (.error 400, db) := by
  obtain ⟨q, hq, hid⟩ := h
  cases hfind : db.pokemons.find? (fun p => p.id == pokemon.id) with
  | some _ => simp only [create_pokemon, hfind]
  | none =>
    rw [List.find?_eq_none] at hfind
    exact absurd (by simpa using hid) (by simpa using hfind q hq)

/-- Witness for C2: creating id 1 over a store that already holds id 1 fails
with 400 and leaves the store intact. -/
theorem create_conflict_preserves_store_witness :
    create_pokemon
      ⟨1, "Mew", none, none, none, none, none, [], [], []⟩
      ⟨[⟨1, "Bulbasaur", some 7, some 69, some 64, none, none⟩],
       [⟨1, "Overgrow", false⟩], [⟨1, "speed", 45⟩], [⟨1, "Grass"⟩]⟩ =
    (.error 400,
     ⟨[⟨1, "Bulbasaur", some 7, some 69, some 64, none, none⟩],
      [⟨1, "Overgrow", false⟩], [⟨1, "speed", 45⟩], [⟨1, "Grass"⟩]⟩) :=
  create_conflict_preserves_store _ _
    ⟨⟨1, "Bulbasaur", some 7, some 69, some 64, none, none⟩, by simp, rfl⟩

/-- Claim C7: `get_all_pokemon` answers the 404 not-found signal on an empty
store, and otherwise returns every persisted Pokemon (each with its child
collections), never an empty list. -/
theorem get_all_pokemon_spec (db : DB) :
    (db.pokemons = [] → get_all_pokemon db = .error 404) ∧
    (db.pokemons ≠ [] → get_all_pokemon db = .ok (db.pokemons.map (serializePokemon db))) := by
  constructor <;> intro h <;> simp [get_all_pokemon, h]

/-- Witness for C7: the empty store answers 404; a one-row store returns that
row. -/
theorem get_all_pokemon_spec_witness :
    get_all_pokemon ⟨[], [], [], []⟩ = .error 404 ∧
    get_all_pokemon ⟨[⟨1, "Bulbasaur", some 7, some 69, some 64, none, none⟩], [], [], []⟩ =
      .ok [⟨1, "Bulbasaur", some 7, some 69, some 64, none, none, [], [], []⟩] :=
  ⟨(get_all_pokemon_spec _).1 rfl, (get_all_pokemon_spec _).2 (by simp)⟩

/-- Claim C9: `update_pokemon` never changes any Pokemon's identifier — the
update model has no `id` field, so the field-copy loop cannot assign it; the
stored sequence of ids is the same after every update call, successful or
not. -/
theorem update_preserves_ids (pokemon_id : Int) (updated_data : PokemonUpdateModel) (db : DB) :
    ((update_pokemon pokemon_id updated_data db).2).pokemons.map (fun p => p.id) =
      db.pokemons.map (fun p => p.id) := by
  cases hfind : db.pokemons.find? (fun p => p.id == pokemon_id) with
  | none => simp [update_pokemon, hfind]
  | some pokemon =>
    have hpok : ((update_pokemon pokemon_id updated_data db).2).pokemons =
        updateFirstRow db.pokemons pokemon_id (fun p => applyScalarUpdates p updated_data) := by
      simp only [update_pokemon, hfind]
      cases updated_data.abilities <;> cases updated_data.stats <;>
        cases updated_data.types <;> rfl
    rw [hpok]
    exact updateFirstRow_map_id _ _ _ (fun p => rfl)

/-- Claim C5: deleting a present identifier removes the Pokemon row and every
ability/stat/type row of that Pokemon — child queries by that parent id then
find nothing — and answers with the deleted row's last-known state; deleting
an absent identifier answers the 404 not-found signal with the store
unchanged. -/
theorem delete_pokemon_spec (db : DB) (pokemon_id : Int) :
    (∀ q, db.pokemons.find? (fun p => p.id == pokemon_id) = some q →
      (delete_pokemon pokemon_id db).1 = .ok q ∧
      (delete_pokemon pokemon_id db).2.pokemons.find? (fun p => p.id == pokemon_id) = none ∧
      (delete_pokemon pokemon_id db).2.abilities.filter (fun a => a.pokemon_id == pokemon_id) = [] ∧
      (delete_pokemon pokemon_id db).2.stats.filter (fun s => s.pokemon_id == pokemon_id) = [] ∧
      (delete_pokemon pokemon_id db).2.types.filter (fun t => t.pokemon_id == pokemon_id) = []) ∧
    (db.pokemons.find? (fun p => p.id == pokemon_id) = none →
      delete_pokemon pokemon_id db = (.error 404, db)) := by
  constructor
  · intro q hq
    have hd : delete_pokemon pokemon_id db =
        (.ok q,
         { pokemons := db.pokemons.filter (fun p => p.id != pokemon_id)
           abilities := db.abilities.filter (fun a => a.pokemon_id != pokemon_id)
           stats := db.stats.filter (fun s => s.pokemon_id != pokemon_id)
           types := db.types.filter (fun t => t.pokemon_id != pokemon_id) }) := by
      simp only [delete_pokemon, hq]
    rw [hd]
    refine ⟨rfl, ?_, ?_, ?_, ?_⟩
    · rw [List.find?_eq_none]
      intro x hx
      simp only [List.mem_filter] at hx
      simpa using hx.2
    · simp only [List.filter_filter]
      rw [List.filter_eq_nil_iff]
      intro a _
      simp
    · simp only [List.filter_filter]
      rw [List.filter_eq_nil_iff]
      intro s _
      simp
    · simp only [List.filter_filter]
      rw [List.filter_eq_nil_iff]
      intro t _
      simp
  · intro hn
    simp only [delete_pokemon, hn]

/-- Witness for C5: deleting id 1 from a store holding id 1 with one child of
each kind removes the row and all children; deleting the absent id 2 answers
404 unchanged. -/
theorem delete_pokemon_spec_witness :
    ((delete_pokemon 1
        ⟨[⟨1, "Bulbasaur", some 7, some 69, some 64, none, none⟩],
         [⟨1, "Overgrow", false⟩], [⟨1, "speed", 45⟩], [⟨1, "Grass"⟩]⟩).1 =
        .ok ⟨1, "Bulbasaur", some 7, some 69, some 64, none, none⟩ ∧
      (delete_pokemon 1
        ⟨[⟨1, "Bulbasaur", some 7, some 69, some 64, none, none⟩],
         [⟨1, "Overgrow", false⟩], [⟨1, "speed", 45⟩], [⟨1, "Grass"⟩]⟩).2.pokemons.find?
          (fun p => p.id == 1) = none ∧
      (delete_pokemon 1
        ⟨[⟨1, "Bulbasaur", some 7, some 69, some 64, none, none⟩],
         [⟨1, "Overgrow", false⟩], [⟨1, "speed", 45⟩], [⟨1, "Grass"⟩]⟩).2.abilities.filter
          (fun a => a.pokemon_id == 1) = [] ∧
      (delete_pokemon 1
        ⟨[⟨1, "Bulbasaur", some 7, some 69, some 64, none, none⟩],
         [⟨1, "Overgrow", false⟩], [⟨1, "speed", 45⟩], [⟨1, "Grass"⟩]⟩).2.stats.filter
          (fun s => s.pokemon_id == 1) = [] ∧
      (delete_pokemon 1
        ⟨[⟨1, "Bulbasaur", some 7, some 69, some 64, none, none⟩],
         [⟨1, "Overgrow", false⟩], [⟨1, "speed", 45⟩], [⟨1, "Grass"⟩]⟩).2.types.filter
          (fun t => t.pokemon_id == 1) = []) ∧
    delete_pokemon 2 ⟨[⟨1, "Bulbasaur", some 7, some 69, some 64, none, none⟩], [], [], []⟩ =
      (.error 404, ⟨[⟨1, "Bulbasaur", some 7, some 69, some 64, none, none⟩], [], [], []⟩) :=
  ⟨(delete_pokemon_spec _ 1).1 _ rfl, (delete_pokemon_spec _ 2).2 rfl⟩

/-- Claim C3: updating a present Pokemon with a request that supplies only the
`name` field changes only the name — the abilities, stats and types tables are
untouched, and fetching the entity afterwards returns its previous serialized
state with just the name replaced (same height, weight, xp, URLs and child
collections). -/
theorem update_name_only_frame (db : DB) (pokemon_id : Int) (n : String) (q : PokemonRow)
    (hq : db.pokemons.find? (fun p => p.id == pokemon_id) = some q) :
    (update_pokemon pokemon_id ⟨n, none, none, none, none, none, none, none, none⟩ db).2.abilities
        = db.abilities ∧
    (update_pokemon pokemon_id ⟨n, none, none, none, none, none, none, none, none⟩ db).2.stats
        = db.stats ∧
    (update_pokemon pokemon_id ⟨n, none, none, none, none, none, none, none, none⟩ db).2.types
        = db.types ∧
    get_pokemon_by_id pokemon_id
        (update_pokemon pokemon_id ⟨n, none, none, none, none, none, none, none, none⟩ db).2 =
      .ok { serializePokemon db q with name := n } := by
  have hu : update_pokemon pokemon_id ⟨n, none, none, none, none, none, none, none, none⟩ db =
      (.ok (applyScalarUpdates q ⟨n, none, none, none, none, none, none, none, none⟩),
       { db with pokemons := updateFirstRow db.pokemons pokemon_id (fun p => applyScalarUpdates p ⟨n, none, none, none, none, none, none, none, none⟩) }) := by
    simp only [update_pokemon, hq]
  rw [hu]
  refine ⟨rfl, rfl, rfl, ?_⟩
  have hfind := find?_updateFirstRow db.pokemons pokemon_id
    (fun p => applyScalarUpdates p ⟨n, none, none, none, none, none, none, none, none⟩) q
    (fun p => rfl) hq
  simp only [get_pokemon_by_id, hfind]
  rfl

/-- Witness for C3: renaming id 1 to "Ivysaur" with a name-only request keeps
all children and scalar columns. -/
theorem update_name_only_frame_witness :
    (update_pokemon 1 ⟨"Ivysaur", none, none, none, none, none, none, none, none⟩
        ⟨[⟨1, "Bulbasaur", some 7, some 69, some 64, none, none⟩],
         [⟨1, "Overgrow", false⟩], [⟨1, "speed", 45⟩], [⟨1, "Grass"⟩]⟩).2.abilities
        = [⟨1, "Overgrow", false⟩] ∧
    (update_pokemon 1 ⟨"Ivysaur", none, none, none, none, none, none, none, none⟩
        ⟨[⟨1, "Bulbasaur", some 7, some 69, some 64, none, none⟩],
         [⟨1, "Overgrow", false⟩], [⟨1, "speed", 45⟩], [⟨1, "Grass"⟩]⟩).2.stats
        = [⟨1, "speed", 45⟩] ∧
    (update_pokemon 1 ⟨"Ivysaur", none, none, none, none, none, none, none, none⟩
        ⟨[⟨1, "Bulbasaur", some 7, some 69, some 64, none, none⟩],
         [⟨1, "Overgrow", false⟩], [⟨1, "speed", 45⟩], [⟨1, "Grass"⟩]⟩).2.types
        = [⟨1, "Grass"⟩] ∧
    get_pokemon_by_id 1
        (update_pokemon 1 ⟨"Ivysaur", none, none, none, none, none, none, none, none⟩
          ⟨[⟨1, "Bulbasaur", some 7, some 69, some 64, none, none⟩],
           [⟨1, "Overgrow", false⟩], [⟨1, "speed", 45⟩], [⟨1, "Grass"⟩]⟩).2 =
      .ok ⟨1, "Ivysaur", some 7, some 69, some 64, none, none,
           [⟨"Overgrow", false⟩], [⟨"speed", 45⟩], [⟨"Grass"⟩]⟩ :=
  update_name_only_frame _ 1 "Ivysaur" ⟨1, "Bulbasaur", some 7, some 69, some 64, none, none⟩ rfl

/-- Claim C4: updating a present Pokemon with a request whose abilities field
is the empty list deletes every ability row of that Pokemon and inserts none
(the abilities table keeps exactly the other parents' rows, and the entity has
zero abilities afterwards), while the stats and types tables are unaffected
whenever those fields are not supplied. -/
theorem update_empty_abilities_clears (db : DB) (pokemon_id : Int)
    (updated_data : PokemonUpdateModel)
    (hab : updated_data.abilities = some [])
    (hex : (db.pokemons.find? (fun p => p.id == pokemon_id)).isSome = true) :
    (update_pokemon pokemon_id updated_data db).2.abilities =
      db.abilities.filter (fun a => a.pokemon_id != pokemon_id) ∧
    (update_pokemon pokemon_id updated_data db).2.abilities.filter
      (fun a => a.pokemon_id == pokemon_id) = [] ∧
    (updated_data.stats = none → (update_pokemon pokemon_id updated_data db).2.stats = db.stats) ∧
    (updated_data.types = none → (update_pokemon pokemon_id updated_data db).2.types = db.types) := by
  obtain ⟨q, hq⟩ := Option.isSome_iff_exists.mp hex
  have habs : (update_pokemon pokemon_id updated_data db).2.abilities =
      db.abilities.filter (fun a => a.pokemon_id != pokemon_id) := by
    simp only [update_pokemon, hq, hab]
    cases updated_data.stats <;> cases updated_data.types <;> simp
  refine ⟨habs, ?_, ?_, ?_⟩
  · rw [habs, List.filter_filter, List.filter_eq_nil_iff]
    intro a _
    simp
  · intro hst
    simp only [update_pokemon, hq, hab, hst]
    cases updated_data.types <;> simp
  · intro hty
    simp only [update_pokemon, hq, hab, hty]
    cases updated_data.stats <;> simp

/-- Witness for C4: an update of id 1 carrying `abilities = []` (stats and
types omitted) empties that Pokemon's abilities, keeps another Pokemon's
ability row, and leaves the stats and types tables as they were. -/
theorem update_empty_abilities_clears_witness :
    (update_pokemon 1 ⟨"Bulbasaur", none, none, none, none, none, some [], none, none⟩
        ⟨[⟨1, "Bulbasaur", some 7, some 69, some 64, none, none⟩,
          ⟨2, "Ivysaur", some 10, some 130, some 142, none, none⟩],
         [⟨1, "Overgrow", false⟩, ⟨2, "Chlorophyll", true⟩],
         [⟨1, "speed", 45⟩], [⟨1, "Grass"⟩]⟩).2.abilities = [⟨2, "Chlorophyll", true⟩] ∧
    (update_pokemon 1 ⟨"Bulbasaur", none, none, none, none, none, some [], none, none⟩
        ⟨[⟨1, "Bulbasaur", some 7, some 69, some 64, none, none⟩,
          ⟨2, "Ivysaur", some 10, some 130, some 142, none, none⟩],
         [⟨1, "Overgrow", false⟩, ⟨2, "Chlorophyll", true⟩],
         [⟨1, "speed", 45⟩], [⟨1, "Grass"⟩]⟩).2.abilities.filter
      (fun a => a.pokemon_id == 1) = [] ∧
    (update_pokemon 1 ⟨"Bulbasaur", none, none, none, none, none, some [], none, none⟩
        ⟨[⟨1, "Bulbasaur", some 7, some 69, some 64, none, none⟩,
          ⟨2, "Ivysaur", some 10, some 130, some 142, none, none⟩],
         [⟨1, "Overgrow", false⟩, ⟨2, "Chlorophyll", true⟩],
         [⟨1, "speed", 45⟩], [⟨1, "Grass"⟩]⟩).2.stats = [⟨1, "speed", 45⟩] ∧
    (update_pokemon 1 ⟨"Bulbasaur", none, none, none, none, none, some [], none, none⟩
        ⟨[⟨1, "Bulbasaur", some 7, some 69, some 64, none, none⟩,
          ⟨2, "Ivysaur", some 10, some 130, some 142, none, none⟩],
         [⟨1, "Overgrow", false⟩, ⟨2, "Chlorophyll", true⟩],
         [⟨1, "speed", 45⟩], [⟨1, "Grass"⟩]⟩).2.types = [⟨1, "Grass"⟩] := by
  have h := update_empty_abilities_clears
    ⟨[⟨1, "Bulbasaur", some 7, some 69, some 64, none, none⟩,
      ⟨2, "Ivysaur", some 10, some 130, some 142, none, none⟩],
     [⟨1, "Overgrow", false⟩, ⟨2, "Chlorophyll", true⟩],
     [⟨1, "speed", 45⟩], [⟨1, "Grass"⟩]⟩ 1
    ⟨"Bulbasaur", none, none, none, none, none, some [], none, none⟩ rfl rfl
  exact ⟨by rw [h.1]; rfl, h.2.1, h.2.2.1 rfl, h.2.2.2 rfl⟩

/-- Claim C1: over a referentially intact store, creating a Pokemon whose
identifier is fresh and then fetching by that identifier returns exactly the
supplied entity — same id, name, height, weight, xp, image_url, pokemon_url
and the same abilities, stats and types lists. -/
theorem create_then_get_roundtrip (db : DB) (pokemon : PokemonModel)
    (hwf : db.WF)
    (hfresh : ∀ q ∈ db.pokemons, q.id ≠ pokemon.id) :
    get_pokemon_by_id pokemon.id (create_pokemon pokemon db).2 = .ok pokemon := by
  have hnone : db.pokemons.find? (fun p => p.id == pokemon.id) = none := by
    rw [List.find?_eq_none]
    intro q hq
    simpa using hfresh q hq
  simp only [create_pokemon, hnone, get_pokemon_by_id, List.find?_append]
  simp only [Option.none_or, List.find?_cons, beq_self_eq_true]
  have habs : ∀ a ∈ db.abilities, ¬(a.pokemon_id == pokemon.id) = true := by
    intro a ha
    obtain ⟨p, hp, hpid⟩ := hwf.2.1 a ha
    simp [hpid]
    exact hfresh p hp
  have hsts : ∀ s ∈ db.stats, ¬(s.pokemon_id == pokemon.id) = true := by
    intro s hs
    obtain ⟨p, hp, hpid⟩ := hwf.2.2.1 s hs
    simp [hpid]
    exact hfresh p hp
  have htys : ∀ t ∈ db.types, ¬(t.pokemon_id == pokemon.id) = true := by
    intro t ht
    obtain ⟨p, hp, hpid⟩ := hwf.2.2.2 t ht
    simp [hpid]
    exact hfresh p hp
  simp only [serializePokemon, List.filter_append,
    List.filter_eq_nil_iff.mpr habs, List.filter_eq_nil_iff.mpr hsts,
    List.filter_eq_nil_iff.mpr htys, List.nil_append, List.filter_map]
  have hfa : ∀ (l : List AbilityModel),
      List.filter ((fun a => a.pokemon_id == pokemon.id) ∘
        (fun a : AbilityModel => ({ pokemon_id := pokemon.id, name := a.name, is_hidden := a.is_hidden } : AbilityRow))) l = l := by
    intro l
    rw [List.filter_eq_self]
    intro a _
    simp [Function.comp]
  have hfs : ∀ (l : List StatModel),
      List.filter ((fun s => s.pokemon_id == pokemon.id) ∘
        (fun s : StatModel => ({ pokemon_id := pokemon.id, name := s.name, base_stat := s.base_stat } : StatRow))) l = l := by
    intro l
    rw [List.filter_eq_self]
    intro s _
    simp [Function.comp]
  have hft : ∀ (l : List TypeModel),
      List.filter ((fun t => t.pokemon_id == pokemon.id) ∘
        (fun t : TypeModel => ({ pokemon_id := pokemon.id, name := t.name } : TypeRow))) l = l := by
    intro l
    rw [List.filter_eq_self]
    intro t _
    simp [Function.comp]
  rw [hfa, hfs, hft]
  simp only [List.map_map]
  have hma : List.map ((fun a : AbilityRow => ({ name := a.name, is_hidden := a.is_hidden } : AbilityModel)) ∘ fun a : AbilityModel => ({ pokemon_id := pokemon.id, name := a.name, is_hidden := a.is_hidden } : AbilityRow)) pokemon.abilities = pokemon.abilities :=
    List.map_id'' (fun x => rfl) _
  have hms : List.map ((fun s : StatRow => ({ name := s.name, base_stat := s.base_stat } : StatModel)) ∘ fun s : StatModel => ({ pokemon_id := pokemon.id, name := s.name, base_stat := s.base_stat } : StatRow)) pokemon.stats = pokemon.stats :=
    List.map_id'' (fun x => rfl) _
  have hmt : List.map ((fun t : TypeRow => ({ name := t.name } : TypeModel)) ∘ fun t : TypeModel => ({ pokemon_id := pokemon.id, name := t.name } : TypeRow)) pokemon.types = pokemon.types :=
    List.map_id'' (fun x => rfl) _
  rw [hma, hms, hmt]

/-- Witness for C1: creating Bulbasaur (id 1, one ability, one stat, one type)
in the empty store and fetching id 1 returns the identical entity. -/
theorem create_then_get_roundtrip_witness :
    get_pokemon_by_id 1
      (create_pokemon
        ⟨1, "Bulbasaur", some 7, some 69, some 64, none, none,
         [⟨"Overgrow", false⟩], [⟨"speed", 45⟩], [⟨"Grass"⟩]⟩
        ⟨[], [], [], []⟩).2 =
    .ok ⟨1, "Bulbasaur", some 7, some 69, some 64, none, none,
         [⟨"Overgrow", false⟩], [⟨"speed", 45⟩], [⟨"Grass"⟩]⟩ :=
  create_then_get_roundtrip ⟨[], [], [], []⟩
    ⟨1, "Bulbasaur", some 7, some 69, some 64, none, none,
     [⟨"Overgrow", false⟩], [⟨"speed", 45⟩], [⟨"Grass"⟩]⟩
    (by simp [DB.WF]) (by simp)

/-- Success analysis of one loader step: the record's id key was present, and
either that id already existed and the session is unchanged, or a Pokemon row
carrying exactly that id was appended. -/
theorem loadRecord_ok_cases (db : DB) (p : SeedRecord) (db' : DB)
    (h : loadRecord db p = .ok db') :
    ∃ pid, p.id = some pid ∧
      (((db.pokemons.find? (fun q => q.id == pid)).isSome = true ∧ db' = db) ∨
       (∃ row : PokemonRow, row.id = pid ∧ db'.pokemons = db.pokemons ++ [row])) := by
  unfold loadRecord at h
  obtain ⟨pid, hid, h⟩ := exceptBind_ok h
  have hpid : p.id = some pid := by
    cases hp : p.id with
    | none => rw [hp] at hid; simp [fetchKey] at hid
    | some a => rw [hp] at hid; simp [fetchKey] at hid; rw [hid]
  refine ⟨pid, hpid, ?_⟩
  by_cases hmem : (db.pokemons.find? (fun q => q.id == pid)).isSome = true
  · left
    rw [if_pos hmem] at h
    refine ⟨hmem, ?_⟩
    simpa [Pure.pure, Except.pure] using h.symm
  · right
    rw [if_neg hmem] at h
    obtain ⟨name, _, h⟩ := exceptBind_ok h
    obtain ⟨height, _, h⟩ := exceptBind_ok h
    obtain ⟨weight, _, h⟩ := exceptBind_ok h
    obtain ⟨xp, _, h⟩ := exceptBind_ok h
    obtain ⟨image_url, _, h⟩ := exceptBind_ok h
    obtain ⟨pokemon_url, _, h⟩ := exceptBind_ok h
    obtain ⟨ability_entries, _, h⟩ := exceptBind_ok h
    obtain ⟨ability_rows, _, h⟩ := exceptBind_ok h
    obtain ⟨stat_entries, _, h⟩ := exceptBind_ok h
    obtain ⟨stat_rows, _, h⟩ := exceptBind_ok h
    obtain ⟨type_entries, _, h⟩ := exceptBind_ok h
    obtain ⟨type_rows, _, h⟩ := exceptBind_ok h
    have hdb : db' = { db with
        pokemons := db.pokemons ++
          [{ id := pid, name := name, height := some height, weight := some weight,
             xp := some xp, image_url := some image_url, pokemon_url := some pokemon_url }]
        abilities := db.abilities ++ ability_rows
        stats := db.stats ++ stat_rows
        types := db.types ++ type_rows } := by
      simpa [Pure.pure, Except.pure] using h.symm
    exact ⟨_, rfl, by rw [hdb]⟩

/-- Skip-if-exists: when the record's id is already present, the loader step
reads only the id key and leaves the session unchanged. -/
theorem loadRecord_skip (db : DB) (p : SeedRecord) (pid : Int)
    (hid : p.id = some pid)
    (hmem : (db.pokemons.find? (fun q => q.id == pid)).isSome = true) :
    loadRecord db p = .ok db := by
  unfold loadRecord
  rw [hid]
  simp [fetchKey, hmem, Bind.bind, Except.bind, Pure.pure, Except.pure]

/-- After a successful loader step, the record's id is present. -/
theorem loadRecord_presence (db : DB) (p : SeedRecord) (db' : DB) (pid : Int)
    (h : loadRecord db p = .ok db') (hid : p.id = some pid) :
    (db'.pokemons.find? (fun q => q.id == pid)).isSome = true := by
  obtain ⟨pid2, hid2, hcases⟩ := loadRecord_ok_cases db p db' h
  rw [hid] at hid2
  injection hid2 with hid2
  subst hid2
  rcases hcases with ⟨hmem, rfl⟩ | ⟨row, hrow, hpok⟩
  · exact hmem
  · rw [hpok]
    simp [List.find?_append, List.find?_cons, hrow]

/-- A successful loader run preserves the presence of any id. -/
theorem loadRecords_presence (ds : List SeedRecord) : ∀ db db' pid,
    loadRecords db ds = .ok db' →
    (db.pokemons.find? (fun q => q.id == pid)).isSome = true →
    (db'.pokemons.find? (fun q => q.id == pid)).isSome = true := by
  induction ds with
  | nil =>
    intro db db' pid h hp
    injection h with h
    subst h
    exact hp
  | cons p rest ih =>
    intro db db' pid h hp
    unfold loadRecords at h
    cases h1 : loadRecord db p with
    | error e => rw [h1] at h; cases h
    | ok db1 =>
      rw [h1] at h
      apply ih db1 db' pid h
      obtain ⟨pid2, _, hcases⟩ := loadRecord_ok_cases db p db1 h1
      rcases hcases with ⟨_, rfl⟩ | ⟨row, _, hpok⟩
      · exact hp
      · rw [hpok]
        simp [List.find?_append, hp]

/-- A second run of the loader loop over the same records is a no-op. -/
theorem loadRecords_idem (ds : List SeedRecord) : ∀ db db',
    loadRecords db ds = .ok db' → loadRecords db' ds = .ok db' := by
  induction ds with
  | nil =>
    intro db db' h
    injection h with h
    subst h
    rfl
  | cons p rest ih =>
    intro db db' h
    unfold loadRecords at h
    cases h1 : loadRecord db p with
    | error e => rw [h1] at h; cases h
    | ok db1 =>
      rw [h1] at h
      obtain ⟨pid, hid, _⟩ := loadRecord_ok_cases db p db1 h1
      have hpres1 : (db1.pokemons.find? (fun q => q.id == pid)).isSome = true :=
        loadRecord_presence db p db1 pid h1 hid
      have hpres : (db'.pokemons.find? (fun q => q.id == pid)).isSome = true :=
        loadRecords_presence rest db1 db' pid h hpres1
      have hskip : loadRecord db' p = .ok db' := loadRecord_skip db' p pid hid hpres
      show loadRecords db' (p :: rest) = .ok db'
      unfold loadRecords
      rw [hskip]
      exact ih db1 db' h

/-- Claim C8: the seed load is idempotent per entity identifier — a record
whose id already exists is skipped without touching the store, and running the
whole load a second time over the same fetched dataset leaves the store
exactly as the first run left it. -/
theorem load_data_idempotent (fetched : Except String (List SeedRecord)) (db : DB) :
    load_data fetched (load_data fetched db) = load_data fetched db ∧
    (∀ p pid, p.id = some pid →
      (db.pokemons.find? (fun q => q.id == pid)).isSome = true →
      loadRecord db p = .ok db) := by
  constructor
  · simp only [load_data, load_dataAttempt]
    cases fetched with
    | error e => rfl
    | ok ds =>
      cases h : loadRecords db ds with
      | error e => simp [h]
      | ok db' => simp [h, loadRecords_idem ds db db' h]
  · intro p pid hid hmem
    exact loadRecord_skip db p pid hid hmem

/-- Witness for C8: loading the one-record Bulbasaur dataset twice equals
loading it once, and a loader step for id 1 over a store already holding id 1
returns the store unchanged (even though that record lacks every other key). -/
theorem load_data_idempotent_witness :
    load_data
      (.ok [⟨some 1, some "Bulbasaur", some 7, some 69, some 64, some "u", some "v",
             some [⟨some "Overgrow", some false⟩], some [⟨some "speed", some 45⟩],
             some [⟨some "Grass"⟩]⟩])
      (load_data
        (.ok [⟨some 1, some "Bulbasaur", some 7, some 69, some 64, some "u", some "v",
               some [⟨some "Overgrow", some false⟩], some [⟨some "speed", some 45⟩],
               some [⟨some "Grass"⟩]⟩])
        ⟨[], [], [], []⟩) =
      load_data
        (.ok [⟨some 1, some "Bulbasaur", some 7, some 69, some 64, some "u", some "v",
               some [⟨some "Overgrow", some false⟩], some [⟨some "speed", some 45⟩],
               some [⟨some "Grass"⟩]⟩])
        ⟨[], [], [], []⟩ ∧
    loadRecord ⟨[⟨1, "Bulbasaur", some 7, some 69, some 64, none, none⟩], [], [], []⟩
        ⟨some 1, none, none, none, none, none, none, none, none, none⟩ =
      .ok ⟨[⟨1, "Bulbasaur", some 7, some 69, some 64, none, none⟩], [], [], []⟩ :=
  ⟨(load_data_idempotent _ _).1,
   (load_data_idempotent (.error "")
      ⟨[⟨1, "Bulbasaur", some 7, some 69, some 64, none, none⟩], [], [], []⟩).2
     ⟨some 1, none, none, none, none, none, none, none, none, none⟩ 1 rfl rfl⟩

/-- Claim C10: when anything inside the try block fails — the network fetch,
the JSON parse, or any key access while inserting a record — the single final
commit is never reached, so no rows from the load are persisted (the store is
exactly the store from before the load), and the exception is caught and
logged rather than propagated (`load_data` is total and returns a store). -/
theorem load_data_failure_atomic (fetched : Except String (List SeedRecord)) (db : DB)
    (e : String) (h : load_dataAttempt fetched db = .error e) :
    load_data fetched db = db := by
  unfold load_data
  rw [h]

/-- Witness for C10: a dataset whose first record is fine but whose second
record lacks the name key fails mid-load, and the store keeps none of the
rows of either record. -/
theorem load_data_failure_atomic_witness :
    load_data
      (.ok [⟨some 1, some "Bulbasaur", some 7, some 69, some 64, some "u", some "v",
             some [⟨some "Overgrow", some false⟩], some [⟨some "speed", some 45⟩],
             some [⟨some "Grass"⟩]⟩,
            ⟨some 2, none, some 10, some 130, some 142, some "u", some "v",
             some [], some [], some []⟩])
      ⟨[], [], [], []⟩ = ⟨[], [], [], []⟩ :=
  load_data_failure_atomic _ _ "KeyError: name" rfl

/-- Over a pattern containing no `%`, `_` or backslash, `LIKE` is plain string
equality. -/
theorem likeMatchAux_plain (fuel : Nat) : ∀ (p s : List Char),
    p.length + s.length < fuel →
    (∀ c ∈ p, c ≠ '%' ∧ c ≠ '_' ∧ c ≠ '\\') →
    (likeMatchAux fuel p s = true ↔ s = p) := by
  induction fuel with
  | zero =>
    intro p s hf
    exact absurd hf (Nat.not_lt_zero _)
  | succ fuel ih =>
    intro p s hf hp
    cases p with
    | nil =>
      cases s with
      | nil => simp [likeMatchAux]
      | cons c t => simp [likeMatchAux]
    | cons c ps =>
      have hc := hp c (List.mem_cons_self c ps)
      have hps : ∀ x ∈ ps, x ≠ '%' ∧ x ≠ '_' ∧ x ≠ '\\' :=
        fun x hx => hp x (List.mem_cons_of_mem c hx)
      simp only [likeMatchAux]
      rw [if_neg hc.1, if_neg hc.2.1, if_neg hc.2.2]
      cases s with
      | nil => simp
      | cons c2 t =>
        have hlen : ps.length + t.length < fuel := by
          simp only [List.length_cons] at hf
          omega
        simp [Bool.and_eq_true, beq_iff_eq, ih ps t hlen hps]

/-- Over an input whose lowercased form has no wildcard or escape characters,
`ilike` is case-insensitive string equality. -/
theorem ilike_plain (s pattern : String)
    (hp : ∀ c ∈ (strLower pattern).data, c ≠ '%' ∧ c ≠ '_' ∧ c ≠ '\\') :
    (ilike s pattern = true ↔ strLower s = strLower pattern) := by
  unfold ilike likeMatch
  rw [likeMatchAux_plain _ _ _ (by omega) hp]
  exact ⟨fun h => String.ext h, fun h => congrArg String.data h⟩

/-- Claim C6 (amended): the raw path parameter is used as a case-insensitive
SQL `LIKE` pattern, so for every input whose lowercased form contains no
wildcard or escape character (`%`, `_`, backslash) the handler returns the
first Pokemon whose stored name equals the input case-insensitively, and the
404 not-found signal when no stored name does.  (Inputs containing wildcards
are pattern-matched instead — see the counterexample.) -/
theorem get_pokemon_by_name_exact_ci (db : DB) (pokemon_name : String)
    (hp : ∀ c ∈ (strLower pokemon_name).data, c ≠ '%' ∧ c ≠ '_' ∧ c ≠ '\\') :
    get_pokemon_by_name pokemon_name db =
      match db.pokemons.find? (fun p => strLower p.name == strLower pokemon_name) with
      | some pokemon => .ok (serializePokemon db pokemon)
      | none => .error 404 := by
  have hpred : (fun p : PokemonRow => ilike p.name pokemon_name) =
      (fun p : PokemonRow => strLower p.name == strLower pokemon_name) := by
    funext p
    rw [Bool.eq_iff_iff, beq_iff_eq]
    exact ilike_plain p.name pokemon_name hp
  unfold get_pokemon_by_name
  rw [hpred]

/-- Witness for C6 (amended): looking up "pikachu" finds the Pokemon stored as
"Pikachu". -/
theorem get_pokemon_by_name_exact_ci_witness :
    get_pokemon_by_name "pikachu"
        ⟨[⟨25, "Pikachu", some 4, some 60, some 112, none, none⟩], [], [], []⟩ =
      .ok ⟨25, "Pikachu", some 4, some 60, some 112, none, none, [], [], []⟩ := by
  rw [get_pokemon_by_name_exact_ci _ _ (by decide)]
  rfl

/-- Counterexample to C6 as stated: the input "%" is not equal (even
case-insensitively) to the stored name "Pikachu", yet the handler returns that
Pokemon, because the input string is used as an `ILIKE` pattern and `%`
matches every name. -/
theorem get_pokemon_by_name_wildcard_counterexample :
    get_pokemon_by_name "%"
        ⟨[⟨25, "Pikachu", some 4, some 60, some 112, none, none⟩], [], [], []⟩ =
      .ok ⟨25, "Pikachu", some 4, some 60, some 112, none, none, [], [], []⟩ ∧
    strLower "%" ≠ strLower "Pikachu" :=
  ⟨rfl, by decide⟩
